import Mathlib

/-!
Verification development for the hospital-management demo application
(`app.py`).  The application code in `app.py` is embedded shallowly below:
`streamlit` page handlers become transitions of a `step` function on an
explicit application state, the SQLite-backed repository becomes a `DB`
record holding the patient and audit-log collections, and the helper
modules (`database.py`, `auth.py`, `crypto_utils.py`), whose sources are
not part of this tree, are modelled from the specification, as indicated
on each of their definitions.
-/

set_option autoImplicit false

/-! ### Roles, users, audit-log entries -/

/-- The three seeded roles of the system. -/
inductive Role where
  | admin
  | doctor
  | receptionist
deriving DecidableEq

/-- An authenticated identity: username plus role (`auth.py`). -/
structure User where
  username : String
  role : Role
deriving DecidableEq

/-- One audit-log row: `{username, role, action, detail, timestamp}`.
Timestamps are modelled by a logical clock held in the database state. -/
structure AuditLogEntry where
  username : String
  role : Role
  action : String
  detail : String
  timestamp : Nat
deriving DecidableEq

/-! ### Cipher provider

Modelled from the spec: `crypto_utils.get_cipher` returns a process-wide
symmetric cipher; `encrypt`/`decrypt` are deterministic given a fixed key
and round-trip exactly; decryption with the wrong key or a corrupted
ciphertext fails with a `DecryptionError` rather than returning garbage. -/

/-- A symmetric-cipher handle, identified by its key material. -/
structure Cipher where
  key : Nat
deriving DecidableEq

/-- Error raised when decryption fails (wrong key or corrupted token). -/
structure DecryptionError where
deriving DecidableEq

/-- A ciphertext: records the key it was produced with, the payload, and
whether the token is still intact (an authenticated-encryption token such
as Fernet detects any corruption). -/
structure Ciphertext where
  keyId : Nat
  payload : String
  intact : Bool
deriving DecidableEq

/-- Modelled from the spec: deterministic symmetric encryption under the
handle's key. -/
def encrypt (c : Cipher) (p : String) : Ciphertext :=
  ⟨c.key, p, true⟩

/-- Modelled from the spec: `crypto_utils.decrypt_field` — decryption
succeeds exactly when the token was produced under the same key and is
uncorrupted; otherwise it raises `DecryptionError`. -/
def decrypt_field (c : Cipher) (ct : Ciphertext) : Except DecryptionError String :=
  if ct.keyId = c.key ∧ ct.intact = true then .ok ct.payload else .error ⟨⟩

/-- Corruption of a ciphertext token in transit or at rest. -/
def corrupt (ct : Ciphertext) : Ciphertext :=
  { ct with intact := false }

/-! ### Field masker

Modelled from the spec: `crypto_utils.mask_name` derives a pseudonym from
a fixed prefix plus the numeric identifier; `crypto_utils.mask_contact`
keeps a fixed-length suffix (4 characters) of the contact and replaces the
leading characters with the mask character `*`, returning a fully masked
string when the input is shorter than the preserved suffix. -/

/-- The character for decimal digit `d`. -/
def digitChar (d : Nat) : Char :=
  Char.ofNat (48 + d)

/-- Decimal digits of `n`, most significant first; `fuel` bounds the
recursion depth so that the definition is structural. -/
def natDigitsAux : Nat → Nat → List Char
  | 0, _ => []
  | fuel + 1, n =>
    if n < 10 then [digitChar n]
    else natDigitsAux fuel (n / 10) ++ [digitChar (n % 10)]

/-- Decimal digits of `n`, most significant first. -/
def natDigits (n : Nat) : List Char :=
  natDigitsAux (n + 1) n

/-- Modelled from the spec: pseudonym derived solely from the numeric
identifier — a fixed prefix plus the identifier's decimal rendering. -/
def mask_name (id : Nat) : String :=
  "Patient_" ++ ⟨natDigits id⟩

/-- Number of trailing characters of a contact preserved by redaction. -/
def suffixLen : Nat := 4

/-- Modelled from the spec: contact redaction — keep the last `suffixLen`
characters, replace the rest by `*`; inputs shorter than the suffix are
fully masked. -/
def mask_contact (contact : String) : String :=
  let n := contact.data.length
  if suffixLen ≤ n then
    ⟨List.replicate (n - suffixLen) '*' ++ contact.data.drop (n - suffixLen)⟩
  else
    ⟨List.replicate n '*'⟩

/-- Reading a digit string back as a number (used to prove the decimal
rendering injective). -/
def parseDigits (l : List Char) : Nat :=
  l.foldl (fun a c => 10 * a + (c.toNat - 48)) 0

/-! ### Patient repository and database state -/

/-- A patient record, with raw, pseudonymized and encrypted fields
(schema of `database.py` as described in the spec and used by `app.py`). -/
structure Patient where
  patient_id : Nat
  name : String
  contact : String
  diagnosis : String
  anonymized_name : String
  anonymized_contact : String
  encrypted_name : Ciphertext
  encrypted_contact : Ciphertext
  date_added : Nat
deriving DecidableEq

/-- The persisted store: patient collection, audit log, the next
auto-increment patient id, and a logical clock supplying timestamps. -/
structure DB where
  patients : List Patient
  logs : List AuditLogEntry
  nextId : Nat
  clock : Nat
deriving DecidableEq

/-- The application state: the store plus the transient session
(`st.session_state['user']` in `app.py`). -/
structure AppState where
  db : DB
  user : Option User
deriving DecidableEq

/-- Modelled from the spec: `database.add_patient` — inserts a row with
the caller-supplied raw and derived fields (the call signature of
`app.py` line 189), assigning the next auto-increment id and the current
time as `date_added`; returns the new id. -/
def add_patient (d : DB) (name contact diagnosis anon_name anon_contact : String)
    (enc_name enc_contact : Ciphertext) : DB × Nat :=
  let pid := d.nextId
  ({ d with
      patients := d.patients ++
        [⟨pid, name, contact, diagnosis, anon_name, anon_contact,
          enc_name, enc_contact, d.clock⟩],
      nextId := pid + 1 }, pid)

/-- Modelled from the spec: `database.update_patient` — overwrites the raw
and anonymized fields of the record with the given id, leaving every other
record and the encrypted fields untouched. -/
def update_patient (d : DB) (pid : Nat)
    (name contact diagnosis anon_name anon_contact : String) : DB :=
  { d with
      patients := d.patients.map fun p =>
        if p.patient_id = pid then
          { p with
              name := name, contact := contact, diagnosis := diagnosis,
              anonymized_name := anon_name, anonymized_contact := anon_contact }
        else p }

/-- Modelled from the spec: `database.anonymize_all_patients` — for every
existing patient, recompute `anonymized_name`/`anonymized_contact` from
id/contact and `encrypted_name`/`encrypted_contact` from the raw fields
via the given cipher, persisting in place. -/
def anonymize_all_patients (c : Cipher) (d : DB) : DB :=
  { d with
      patients := d.patients.map fun p =>
        { p with
            anonymized_name := mask_name p.patient_id,
            anonymized_contact := mask_contact p.contact,
            encrypted_name := encrypt c p.name,
            encrypted_contact := encrypt c p.contact } }

/-! ### Authentication and audit logging -/

/-- The seeded credential store (the demo credentials shown on the login
page of `app.py`): username, password, role. -/
def seededUsers : List (String × String × Role) :=
  [("admin", "admin123", Role.admin),
   ("dr_bob", "doc123", Role.doctor),
   ("alice_recep", "rec123", Role.receptionist)]

/-- Modelled from the spec: `auth.authenticate_user` — looks the username
up in the credential store and fails closed on absence or password
mismatch. -/
def authenticate_user (username password : String) : Option User :=
  (seededUsers.find? fun t => t.1 == username && t.2.1 == password).map
    fun t => ⟨t.1, t.2.2⟩

/-- Modelled from the spec: `auth.check_role` — pure membership test of
the session's role in the required-role list; false when logged out. -/
def check_role (s : AppState) (required : List Role) : Bool :=
  match s.user with
  | some u => decide (u.role ∈ required)
  | none => false

/-- Modelled from the spec: `auth.log_user_action` — appends one audit
entry for the session user with a server-assigned timestamp (the current
clock), advancing the clock; does nothing when no user is logged in. -/
def log_user_action (s : AppState) (action detail : String) : AppState :=
  match s.user with
  | some u =>
      { s with db :=
          { s.db with
              logs := s.db.logs ++ [⟨u.username, u.role, action, detail, s.db.clock⟩],
              clock := s.db.clock + 1 } }
  | none => s

/-! ### The add-patient flow of `app.py` (lines 178–196)

The flow first persists the record with the placeholder pseudonym
`mask_name 999` (line 182, "Temp ID, will update after insert"), then
issues a corrective `update_patient` with `mask_name pid` (line 192). -/

/-- Result of the add-patient flow: the store right after the insert, the
store after the corrective update, and the assigned id. -/
structure AddFlowResult where
  mid : DB
  final : DB
  pid : Nat
deriving DecidableEq

/-- The add-patient submission of `app.py` lines 180–192, body of the
validated branch: placeholder pseudonym, encryption, insert, corrective
update. -/
def add_flow (c : Cipher) (d : DB) (name contact diagnosis : String) : AddFlowResult :=
  let anon_name := mask_name 999
  let anon_contact := mask_contact contact
  let enc_name := encrypt c name
  let enc_contact := encrypt c contact
  let r := add_patient d name contact diagnosis anon_name anon_contact enc_name enc_contact
  let db2 := update_patient r.1 r.2 name contact diagnosis (mask_name r.2) anon_contact
  ⟨r.1, db2, r.2⟩

/-- The successive persisted store states during the add-patient flow:
before the insert, after the insert, after the corrective update. -/
def add_flow_trace (c : Cipher) (d : DB) (name contact diagnosis : String) : List DB :=
  [d, (add_flow c d name contact diagnosis).mid, (add_flow c d name contact diagnosis).final]

/-! ### The UI transition system (`app.py` page handlers) -/

/-- One user interaction with the application, as routed by `main()`. -/
inductive Event where
  | login (username password : String)
  | addPatient (name contact diagnosis : String)
  | updatePatient (pid : Nat) (name contact diagnosis : String)
  | anonymizeAll
  | decryptPatient (pid : Nat)
  | viewRaw
  | viewAnonymized
  | viewDashboard
  | viewAuditLog
  | logout
deriving DecidableEq

/-- The transition of the application on one interaction, embedding the
page handlers of `app.py`:

* `login` — `login_page`, lines 68–81: only from the logged-out state,
  both fields required, audit entry only on success;
* `addPatient` — `patients_page` tab 2, lines 168–200: admin or
  receptionist only, all fields required, runs `add_flow` then logs;
* `updatePatient` — `patients_page` tab 3, lines 202–231: admin or
  receptionist only, id chosen from the existing ids;
* `anonymizeAll` — `anonymization_page`, lines 237–253: admin only;
* `decryptPatient` — `anonymization_page`, lines 255–273: admin only,
  id chosen from the existing ids, logs after both fields decrypt;
* `viewRaw` / `viewAnonymized` — `patients_page` tab 1, lines 134–165:
  shown only when patients exist; the admin raw view and the doctor
  anonymized view log, the admin anonymized view does not;
* `viewDashboard` — `dashboard_page`, lines 95–122: always logs;
* `viewAuditLog` — `audit_logs_page`, lines 277–312: admin only, logs
  only when the log is non-empty;
* `logout` — `logout`, lines 34–40: logs while the user is still set,
  then clears the session. -/
def step (c : Cipher) (s : AppState) (e : Event) : AppState :=
  match e with
  | .login username password =>
      match s.user with
      | some _ => s
      | none =>
          if username = "" ∨ password = "" then s
          else
            match authenticate_user username password with
            | some u =>
                log_user_action { s with user := some u } "LOGIN"
                  ("User " ++ username ++ " logged in")
            | none => s
  | .addPatient name contact diagnosis =>
      match s.user with
      | none => s
      | some u =>
          if u.role = Role.admin ∨ u.role = Role.receptionist then
            if name ≠ "" ∧ contact ≠ "" ∧ diagnosis ≠ "" then
              let r := add_flow c s.db name contact diagnosis
              log_user_action { s with db := r.final } "ADD_PATIENT"
                ("Added patient ID " ++ toString r.pid)
            else s
          else s
  | .updatePatient pid name contact diagnosis =>
      match s.user with
      | none => s
      | some u =>
          if u.role = Role.admin ∨ u.role = Role.receptionist then
            if s.db.patients.any (fun p => p.patient_id == pid) then
              let db2 := update_patient s.db pid name contact diagnosis
                (mask_name pid) (mask_contact contact)
              log_user_action { s with db := db2 } "UPDATE_PATIENT"
                ("Updated patient ID " ++ toString pid)
            else s
          else s
  | .anonymizeAll =>
      if check_role s [Role.admin] then
        log_user_action { s with db := anonymize_all_patients c s.db } "ANONYMIZE_ALL"
          "Batch anonymization applied with encryption"
      else s
  | .decryptPatient pid =>
      if check_role s [Role.admin] then
        match s.db.patients.find? (fun p => p.patient_id == pid) with
        | some p =>
            match decrypt_field c p.encrypted_name, decrypt_field c p.encrypted_contact with
            | .ok _, .ok _ =>
                log_user_action s "DECRYPT_DATA" ("Decrypted patient ID " ++ toString pid)
            | _, _ => s
        | none => s
      else s
  | .viewRaw =>
      match s.user with
      | none => s
      | some u =>
          if s.db.patients ≠ [] ∧ u.role = Role.admin then
            log_user_action s "VIEW_RAW_DATA" "Admin viewed raw patient data"
          else s
  | .viewAnonymized =>
      match s.user with
      | none => s
      | some u =>
          if s.db.patients ≠ [] ∧ u.role = Role.doctor then
            log_user_action s "VIEW_ANONYMIZED_DATA" "Doctor viewed anonymized data"
          else s
  | .viewDashboard =>
      match s.user with
      | none => s
      | some _ => log_user_action s "VIEW_DASHBOARD" "Accessed dashboard"
  | .viewAuditLog =>
      if check_role s [Role.admin] then
        if s.db.logs ≠ [] then
          log_user_action s "VIEW_AUDIT_LOG" "Accessed audit logs"
        else s
      else s
  | .logout =>
      match s.user with
      | none => { s with user := none, db := s.db }
      | some _ =>
          let s2 := log_user_action s "LOGOUT" "User logged out"
          { s2 with user := none }

/-- Whether the interaction `e`, taken from state `s`, is one of the
operations that `app.py` records in the audit log (its success
conditions, mirrored from the branch structure of the page handlers). -/
def isLogged (c : Cipher) (s : AppState) (e : Event) : Bool :=
  match e with
  | .login username password =>
      match s.user with
      | some _ => false
      | none =>
          if username = "" ∨ password = "" then false
          else (authenticate_user username password).isSome
  | .addPatient name contact diagnosis =>
      match s.user with
      | none => false
      | some u =>
          decide (u.role = Role.admin ∨ u.role = Role.receptionist) &&
          decide (name ≠ "" ∧ contact ≠ "" ∧ diagnosis ≠ "")
  | .updatePatient pid _ _ _ =>
      match s.user with
      | none => false
      | some u =>
          decide (u.role = Role.admin ∨ u.role = Role.receptionist) &&
          s.db.patients.any (fun p => p.patient_id == pid)
  | .anonymizeAll => check_role s [Role.admin]
  | .decryptPatient pid =>
      check_role s [Role.admin] &&
      match s.db.patients.find? (fun p => p.patient_id == pid) with
      | some p =>
          (decrypt_field c p.encrypted_name).isOk && (decrypt_field c p.encrypted_contact).isOk
      | none => false
  | .viewRaw =>
      match s.user with
      | none => false
      | some u => decide (s.db.patients ≠ []) && decide (u.role = Role.admin)
  | .viewAnonymized =>
      match s.user with
      | none => false
      | some u => decide (s.db.patients ≠ []) && decide (u.role = Role.doctor)
  | .viewDashboard => s.user.isSome
  | .viewAuditLog => check_role s [Role.admin] && decide (s.db.logs ≠ [])
  | .logout => s.user.isSome

/-- Folding a sequence of interactions through the application. -/
def runEvents (c : Cipher) (s : AppState) : List Event → AppState
  | [] => s
  | e :: es => runEvents c (step c s e) es

/-- The number of interactions of a sequence that the application records
in the audit log. -/
def countLogged (c : Cipher) (s : AppState) : List Event → Nat
  | [] => 0
  | e :: es => (if isLogged c s e then 1 else 0) + countLogged c (step c s e) es

/-- Store well-formedness used by the audit-log theorems: every recorded
timestamp is at most the current clock. -/
def logsWF (d : DB) : Prop :=
  ∀ en ∈ d.logs, en.timestamp ≤ d.clock

instance logsWF_decidable (d : DB) : Decidable (logsWF d) :=
  inferInstanceAs (Decidable (∀ en ∈ d.logs, en.timestamp ≤ d.clock))

/-- The empty store, as created by `init_database` before any patient or
log row exists (auto-increment ids start at 1). -/
def emptyDB : DB :=
  ⟨[], [], 1, 0⟩

/-! ### Helper lemmas -/

theorem digitChar_toNat {d : Nat} (h : d < 10) : (digitChar d).toNat = 48 + d := by
  interval_cases d <;> rfl

theorem parseDigits_append (l : List Char) (c : Char) :
    parseDigits (l ++ [c]) = 10 * parseDigits l + (c.toNat - 48) := by
  simp [parseDigits, List.foldl_append]

theorem parseDigits_natDigitsAux (fuel : Nat) :
    ∀ n : Nat, n < 10 ^ fuel → parseDigits (natDigitsAux fuel n) = n := by
  induction fuel with
  | zero =>
    intro n h
    simp at h
    simp [h, natDigitsAux, parseDigits]
  | succ fuel ih =>
    intro n h
    by_cases h10 : n < 10
    · simp [natDigitsAux, h10, parseDigits, digitChar_toNat h10]
    · have hdiv : n / 10 < 10 ^ fuel := by
        apply Nat.div_lt_of_lt_mul
        calc n < 10 ^ (fuel + 1) := h
        _ = 10 * 10 ^ fuel := by ring
      have hmod : n % 10 < 10 := Nat.mod_lt _ (by norm_num)
      simp only [natDigitsAux, h10, if_false]
      rw [parseDigits_append, ih _ hdiv, digitChar_toNat hmod]
      omega

theorem parseDigits_natDigits (n : Nat) : parseDigits (natDigits n) = n := by
  apply parseDigits_natDigitsAux
  calc n < 10 ^ n := Nat.lt_pow_self (by norm_num) n
  _ ≤ 10 ^ (n + 1) := Nat.pow_le_pow_right (by norm_num) (Nat.le_succ n)

theorem mask_name_injective : Function.Injective mask_name := by
  intro i j h
  have hdata : ("Patient_".data ++ natDigits i) = ("Patient_".data ++ natDigits j) := by
    have := congrArg String.data h
    simpa [mask_name, String.append] using this
  have : natDigits i = natDigits j := List.append_cancel_left hdata
  calc i = parseDigits (natDigits i) := (parseDigits_natDigits i).symm
  _ = parseDigits (natDigits j) := by rw [this]
  _ = j := parseDigits_natDigits j

theorem update_patient_logs (d : DB) (pid : Nat) (n co dg an ac : String) :
    (update_patient d pid n co dg an ac).logs = d.logs := rfl

theorem update_patient_clock (d : DB) (pid : Nat) (n co dg an ac : String) :
    (update_patient d pid n co dg an ac).clock = d.clock := rfl

theorem add_flow_final_logs (c : Cipher) (d : DB) (n co dg : String) :
    (add_flow c d n co dg).final.logs = d.logs := rfl

theorem add_flow_final_clock (c : Cipher) (d : DB) (n co dg : String) :
    (add_flow c d n co dg).final.clock = d.clock := rfl

theorem anonymize_all_logs (c : Cipher) (d : DB) :
    (anonymize_all_patients c d).logs = d.logs := rfl

theorem anonymize_all_clock (c : Cipher) (d : DB) :
    (anonymize_all_patients c d).clock = d.clock := rfl

theorem log_user_action_some (s : AppState) (u : User) (hu : s.user = some u)
    (a dt : String) :
    (log_user_action s a dt).db.logs
        = s.db.logs ++ [⟨u.username, u.role, a, dt, s.db.clock⟩] ∧
    (log_user_action s a dt).db.clock = s.db.clock + 1 := by
  simp [log_user_action, hu]

/-- Every transition either leaves the audit log and the clock untouched,
or appends exactly one entry stamped with the current clock and advances
the clock — according to `isLogged`. -/
theorem step_logs_shape (c : Cipher) (s : AppState) (e : Event) :
    ((step c s e).db.logs = s.db.logs ∧ (step c s e).db.clock = s.db.clock ∧
      isLogged c s e = false) ∨
    (∃ en : AuditLogEntry,
      (step c s e).db.logs = s.db.logs ++ [en] ∧ en.timestamp = s.db.clock ∧
      (step c s e).db.clock = s.db.clock + 1 ∧ isLogged c s e = true) := by
  cases e with
  | login un pw =>
      rcases hs : s.user with _ | usr
      · by_cases hemp : un = "" ∨ pw = ""
        · left; simp [step, isLogged, hs, hemp]
        · rcases ha : authenticate_user un pw with _ | au
          · left; simp [step, isLogged, hs, hemp, ha]
          · right
            refine ⟨⟨au.username, au.role, "LOGIN", "User " ++ un ++ " logged in",
              s.db.clock⟩, ?_, ?_, ?_, ?_⟩ <;>
              simp [step, isLogged, hs, hemp, ha, log_user_action]
      · left; simp [step, isLogged, hs]
  | addPatient n co dg =>
      rcases hs : s.user with _ | usr
      · left; simp [step, isLogged, hs]
      · by_cases hrole : usr.role = Role.admin ∨ usr.role = Role.receptionist
        · by_cases hfields : n ≠ "" ∧ co ≠ "" ∧ dg ≠ ""
          · right
            refine ⟨⟨usr.username, usr.role, "ADD_PATIENT",
              "Added patient ID " ++ toString (add_flow c s.db n co dg).pid,
              s.db.clock⟩, ?_, ?_, ?_, ?_⟩ <;>
              simp [step, isLogged, hs, hrole, hfields, log_user_action,
                add_flow, add_patient, update_patient]
          · left; simp [step, isLogged, hs, hrole, hfields]
        · left; simp [step, isLogged, hs, hrole]
  | updatePatient pid n co dg =>
      rcases hs : s.user with _ | usr
      · left; simp [step, isLogged, hs]
      · by_cases hrole : usr.role = Role.admin ∨ usr.role = Role.receptionist
        · by_cases hex : s.db.patients.any (fun p => p.patient_id == pid)
          · right
            refine ⟨⟨usr.username, usr.role, "UPDATE_PATIENT",
              "Updated patient ID " ++ toString pid, s.db.clock⟩, ?_, ?_, ?_, ?_⟩ <;>
              simp [step, isLogged, hs, hrole, hex, log_user_action, update_patient]
          · left; simp [step, isLogged, hs, hrole, hex]
        · left; simp [step, isLogged, hs, hrole]
  | anonymizeAll =>
      by_cases hck : check_role s [Role.admin] = true
      · rcases hs : s.user with _ | usr
        · simp [check_role, hs] at hck
        · right
          refine ⟨⟨usr.username, usr.role, "ANONYMIZE_ALL",
            "Batch anonymization applied with encryption", s.db.clock⟩, ?_, ?_, ?_, ?_⟩ <;>
            simp [step, isLogged, hs, hck, log_user_action, anonymize_all_patients]
      · left
        simp only [Bool.not_eq_true] at hck
        simp [step, isLogged, hck]
  | decryptPatient pid =>
      by_cases hck : check_role s [Role.admin] = true
      · rcases hs : s.user with _ | usr
        · simp [check_role, hs] at hck
        · rcases hf : s.db.patients.find? (fun p => p.patient_id == pid) with _ | p
          · left; simp [step, isLogged, hck, hf]
          · rcases he1 : decrypt_field c p.encrypted_name with e1 | v1
            · left
              simp [step, isLogged, hck, hf, he1, Except.isOk, Except.toBool]
            · rcases he2 : decrypt_field c p.encrypted_contact with e2 | v2
              · left
                simp [step, isLogged, hck, hf, he1, he2, Except.isOk, Except.toBool]
              · right
                refine ⟨⟨usr.username, usr.role, "DECRYPT_DATA",
                  "Decrypted patient ID " ++ toString pid, s.db.clock⟩, ?_, ?_, ?_, ?_⟩ <;>
                  simp [step, isLogged, hs, hck, hf, he1, he2, log_user_action,
                    Except.isOk, Except.toBool]
      · left
        simp only [Bool.not_eq_true] at hck
        simp [step, isLogged, hck]
  | viewRaw =>
      rcases hs : s.user with _ | usr
      · left; simp [step, isLogged, hs]
      · by_cases hcond : s.db.patients ≠ [] ∧ usr.role = Role.admin
        · right
          refine ⟨⟨usr.username, usr.role, "VIEW_RAW_DATA",
            "Admin viewed raw patient data", s.db.clock⟩, ?_, ?_, ?_, ?_⟩ <;>
            simp [step, isLogged, hs, hcond, hcond.1, hcond.2, log_user_action]
        · left
          simp [step, isLogged, hs, hcond]
          intro h1 h2
          exact absurd ⟨h1, h2⟩ hcond
  | viewAnonymized =>
      rcases hs : s.user with _ | usr
      · left; simp [step, isLogged, hs]
      · by_cases hcond : s.db.patients ≠ [] ∧ usr.role = Role.doctor
        · right
          refine ⟨⟨usr.username, usr.role, "VIEW_ANONYMIZED_DATA",
            "Doctor viewed anonymized data", s.db.clock⟩, ?_, ?_, ?_, ?_⟩ <;>
            simp [step, isLogged, hs, hcond, hcond.1, hcond.2, log_user_action]
        · left
          simp [step, isLogged, hs, hcond]
          intro h1 h2
          exact absurd ⟨h1, h2⟩ hcond
  | viewDashboard =>
      rcases hs : s.user with _ | usr
      · left; simp [step, isLogged, hs]
      · right
        refine ⟨⟨usr.username, usr.role, "VIEW_DASHBOARD", "Accessed dashboard",
          s.db.clock⟩, ?_, ?_, ?_, ?_⟩ <;>
          simp [step, isLogged, hs, log_user_action]
  | viewAuditLog =>
      by_cases hck : check_role s [Role.admin] = true
      · rcases hs : s.user with _ | usr
        · simp [check_role, hs] at hck
        · by_cases hlogs : s.db.logs ≠ []
          · right
            refine ⟨⟨usr.username, usr.role, "VIEW_AUDIT_LOG", "Accessed audit logs",
              s.db.clock⟩, ?_, ?_, ?_, ?_⟩ <;>
              simp [step, isLogged, hs, hck, hlogs, log_user_action]
          · left; simp [step, isLogged, hck, hlogs]
      · left
        simp only [Bool.not_eq_true] at hck
        simp [step, isLogged, hck]
  | logout =>
      rcases hs : s.user with _ | usr
      · left; simp [step, isLogged, hs]
      · right
        refine ⟨⟨usr.username, usr.role, "LOGOUT", "User logged out",
          s.db.clock⟩, ?_, ?_, ?_, ?_⟩ <;>
          simp [step, isLogged, hs, log_user_action]

/-! ### Claim theorems -/

/-- Claim C2, counterexample: an admin viewing the patient list in
anonymized mode is a successful sensitive read of the kind the claim
lists (`raw/anonymized view`), yet `patients_page` (lines 149–151 of
`app.py`) appends no audit entry for it, so the claim's "appends exactly
one audit entry" fails at this concrete state. -/
theorem admin_anonymized_view_not_logged :
    ¬ ((step ⟨0⟩
          ⟨⟨[⟨1, "Jane Doe", "5551234567", "flu", mask_name 1, mask_contact "5551234567",
              encrypt ⟨0⟩ "Jane Doe", encrypt ⟨0⟩ "5551234567", 0⟩], [], 2, 1⟩,
            some ⟨"admin", Role.admin⟩⟩
          Event.viewAnonymized).db.logs.length
        = ((⟨⟨[⟨1, "Jane Doe", "5551234567", "flu", mask_name 1, mask_contact "5551234567",
              encrypt ⟨0⟩ "Jane Doe", encrypt ⟨0⟩ "5551234567", 0⟩], [], 2, 1⟩,
            some ⟨"admin", Role.admin⟩⟩ : AppState)).db.logs.length + 1) := by
  decide

/-- Claim C2 (amended): every operation that `app.py` records — login,
add patient, update patient, anonymize-all, decrypt, the admin raw view,
the doctor anonymized view, dashboard and non-empty audit-log views,
logout — appends exactly one audit entry on success (the admin anonymized
view appends none), failed or denied attempts append none, so after a
sequence of interactions the log has grown by exactly the number of
successfully logged operations and its timestamps are in non-decreasing
order. -/
theorem audit_log_discipline (c : Cipher) (s : AppState) (es : List Event)
    (hwf : logsWF s.db)
    (hsort : s.db.logs.Pairwise (fun a b => a.timestamp ≤ b.timestamp)) :
    (runEvents c s es).db.logs.length = s.db.logs.length + countLogged c s es ∧
    (runEvents c s es).db.logs.Pairwise (fun a b => a.timestamp ≤ b.timestamp) := by
  induction es generalizing s with
  | nil => exact ⟨by simp [runEvents, countLogged], by simpa [runEvents] using hsort⟩
  | cons e es ih =>
      rcases step_logs_shape c s e with ⟨hl, hc, hi⟩ | ⟨en, hl, ht, hc, hi⟩
      · have hwf' : logsWF (step c s e).db := by
          intro x hx
          rw [hl] at hx
          rw [hc]
          exact hwf x hx
        have hsort' : (step c s e).db.logs.Pairwise
            (fun a b => a.timestamp ≤ b.timestamp) := by
          rw [hl]; exact hsort
        obtain ⟨h1, h2⟩ := ih (step c s e) hwf' hsort'
        refine ⟨?_, by simpa [runEvents] using h2⟩
        simp only [runEvents, countLogged, hi, if_false, Bool.false_eq_true]
        rw [h1, hl]
        omega
      · have hwf' : logsWF (step c s e).db := by
          intro x hx
          rw [hl] at hx
          rw [hc]
          rcases List.mem_append.mp hx with hx | hx
          · exact Nat.le_succ_of_le (hwf x hx)
          · simp at hx
            subst hx
            omega
        have hsort' : (step c s e).db.logs.Pairwise
            (fun a b => a.timestamp ≤ b.timestamp) := by
          rw [hl, List.pairwise_append]
          refine ⟨hsort, by simp, ?_⟩
          intro a ha b hb
          simp at hb
          subst hb
          rw [ht]
          exact hwf a ha
        obtain ⟨h1, h2⟩ := ih (step c s e) hwf' hsort'
        refine ⟨?_, by simpa [runEvents] using h2⟩
        simp only [runEvents, countLogged, hi, if_true]
        rw [h1, hl]
        simp
        omega

/-- Claim C2, witness run: from the empty store, a successful admin
login, a dashboard view and a logout make exactly three audit entries,
in non-decreasing timestamp order. -/
theorem audit_log_discipline_witness :
    logsWF (AppState.mk emptyDB none).db ∧
    (AppState.mk emptyDB none).db.logs.Pairwise (fun a b => a.timestamp ≤ b.timestamp) ∧
    ((runEvents ⟨0⟩ ⟨emptyDB, none⟩
        [Event.login "admin" "admin123", Event.viewDashboard, Event.logout]).db.logs.length
      = (AppState.mk emptyDB none).db.logs.length +
        countLogged ⟨0⟩ ⟨emptyDB, none⟩
          [Event.login "admin" "admin123", Event.viewDashboard, Event.logout] ∧
    (runEvents ⟨0⟩ ⟨emptyDB, none⟩
        [Event.login "admin" "admin123", Event.viewDashboard, Event.logout]).db.logs.Pairwise
      (fun a b => a.timestamp ≤ b.timestamp)) :=
  ⟨by decide, by decide,
    audit_log_discipline ⟨0⟩ ⟨emptyDB, none⟩
      [Event.login "admin" "admin123", Event.viewDashboard, Event.logout]
      (by decide) (by decide)⟩

theorem log_user_action_patients (s : AppState) (a dt : String) :
    (log_user_action s a dt).db.patients = s.db.patients := by
  cases hs : s.user <;> simp [log_user_action, hs]

/-- Claim C3: for a session authenticated as a doctor, an add-patient
attempt is denied before any mutation — `patients_page` (line 169 of
`app.py`) never reaches the insert, so the whole state (patient
collection, audit log, session) is unchanged. -/
theorem doctor_add_denied (c : Cipher) (s : AppState) (u : User)
    (n co dg : String) (hu : s.user = some u) (hrole : u.role = Role.doctor) :
    step c s (Event.addPatient n co dg) = s := by
  simp [step, hu, hrole]

/-- Claim C3, witness: a doctor submitting a fully filled add-patient
form leaves the state untouched. -/
theorem doctor_add_denied_witness :
    (AppState.mk emptyDB (some ⟨"dr_bob", Role.doctor⟩)).user
        = some ⟨"dr_bob", Role.doctor⟩ ∧
    step ⟨0⟩ ⟨emptyDB, some ⟨"dr_bob", Role.doctor⟩⟩
        (Event.addPatient "Jane Doe" "5551234567" "flu")
      = ⟨emptyDB, some ⟨"dr_bob", Role.doctor⟩⟩ :=
  ⟨rfl, doctor_add_denied ⟨0⟩ ⟨emptyDB, some ⟨"dr_bob", Role.doctor⟩⟩
    ⟨"dr_bob", Role.doctor⟩ "Jane Doe" "5551234567" "flu" rfl rfl⟩

/-- Claim C9: when an admin opens the audit-log page, `audit_logs_page`
(lines 286–312 of `app.py`) appends a `VIEW_AUDIT_LOG` entry exactly when
the log is already non-empty; on an empty log the page changes nothing,
so the very first view is never recorded. -/
theorem view_audit_log_conditional (c : Cipher) (s : AppState) (u : User)
    (hu : s.user = some u) (hr : u.role = Role.admin) :
    (s.db.logs = [] → step c s Event.viewAuditLog = s) ∧
    (s.db.logs ≠ [] →
      (step c s Event.viewAuditLog).db.logs =
        s.db.logs ++
          [⟨u.username, u.role, "VIEW_AUDIT_LOG", "Accessed audit logs", s.db.clock⟩]) := by
  constructor
  · intro h
    simp [step, check_role, hu, hr, h]
  · intro h
    simp [step, check_role, hu, hr, h, log_user_action]

/-- Claim C9, witness: with one existing entry the admin view is
recorded; the appended action is `VIEW_AUDIT_LOG`. -/
theorem view_audit_log_conditional_witness :
    (AppState.mk ⟨[], [⟨"admin", Role.admin, "LOGIN", "User admin logged in", 0⟩], 1, 1⟩
        (some ⟨"admin", Role.admin⟩)).user = some ⟨"admin", Role.admin⟩ ∧
    (step ⟨0⟩ ⟨⟨[], [⟨"admin", Role.admin, "LOGIN", "User admin logged in", 0⟩], 1, 1⟩,
        some ⟨"admin", Role.admin⟩⟩ Event.viewAuditLog).db.logs
      = [⟨"admin", Role.admin, "LOGIN", "User admin logged in", 0⟩] ++
        [⟨"admin", Role.admin, "VIEW_AUDIT_LOG", "Accessed audit logs", 1⟩] :=
  ⟨rfl,
    (view_audit_log_conditional ⟨0⟩
      ⟨⟨[], [⟨"admin", Role.admin, "LOGIN", "User admin logged in", 0⟩], 1, 1⟩,
        some ⟨"admin", Role.admin⟩⟩ ⟨"admin", Role.admin⟩ rfl rfl).2 (by decide)⟩

/-- Claim C10: every dashboard render by a logged-in user, whatever the
role, appends one `VIEW_DASHBOARD` audit entry (`dashboard_page`,
line 122 of `app.py`). -/
theorem dashboard_always_logged (c : Cipher) (s : AppState) (u : User)
    (hu : s.user = some u) :
    (step c s Event.viewDashboard).db.logs =
      s.db.logs ++
        [⟨u.username, u.role, "VIEW_DASHBOARD", "Accessed dashboard", s.db.clock⟩] := by
  simp [step, hu, log_user_action]

/-- Claim C10, witness: a doctor's dashboard render is logged. -/
theorem dashboard_always_logged_witness :
    (AppState.mk emptyDB (some ⟨"dr_bob", Role.doctor⟩)).user
        = some ⟨"dr_bob", Role.doctor⟩ ∧
    (step ⟨0⟩ ⟨emptyDB, some ⟨"dr_bob", Role.doctor⟩⟩ Event.viewDashboard).db.logs
      = [] ++ [⟨"dr_bob", Role.doctor, "VIEW_DASHBOARD", "Accessed dashboard", 0⟩] :=
  ⟨rfl, dashboard_always_logged ⟨0⟩ ⟨emptyDB, some ⟨"dr_bob", Role.doctor⟩⟩
    ⟨"dr_bob", Role.doctor⟩ rfl⟩

/-- Claim C4: with the process-wide cipher, decryption inverts
encryption exactly; decrypting under a different key, or decrypting a
corrupted ciphertext, yields `DecryptionError` instead of a value. -/
theorem decrypt_encrypt_roundtrip :
    (∀ (c : Cipher) (p : String), decrypt_field c (encrypt c p) = Except.ok p) ∧
    (∀ (c c' : Cipher) (p : String), c ≠ c' →
      decrypt_field c' (encrypt c p) = Except.error ⟨⟩) ∧
    (∀ (c : Cipher) (ct : Ciphertext),
      decrypt_field c (corrupt ct) = Except.error ⟨⟩) := by
  refine ⟨?_, ?_, ?_⟩
  · intro c p
    simp [decrypt_field, encrypt]
  · intro c c' p h
    have hk : c.key ≠ c'.key := by
      intro hk
      exact h (by cases c; cases c'; simp_all)
    simp [decrypt_field, encrypt, hk]
  · intro c ct
    simp [decrypt_field, corrupt]

/-- Claim C4, witness: decrypting under key 1 a token encrypted under
key 0 fails with `DecryptionError`. -/
theorem decrypt_encrypt_roundtrip_witness :
    decrypt_field ⟨1⟩ (encrypt ⟨0⟩ "Jane Doe") = Except.error ⟨⟩ :=
  decrypt_encrypt_roundtrip.2.1 ⟨0⟩ ⟨1⟩ "Jane Doe" (by decide)

/-- Claim C5: after `anonymize_all_patients`, every record holds the
mask of its own current raw contact as `anonymized_contact`, the
pseudonym of its own id as `anonymized_name`, the encryptions of its raw
name and contact, and all raw fields (`patient_id`, `name`, `contact`,
`diagnosis`, `date_added`) unchanged. -/
theorem anonymize_all_spec (c : Cipher) (d : DB) (i : Nat) (p : Patient)
    (h : d.patients[i]? = some p) :
    (anonymize_all_patients c d).patients[i]? = some
      { p with
          anonymized_name := mask_name p.patient_id,
          anonymized_contact := mask_contact p.contact,
          encrypted_name := encrypt c p.name,
          encrypted_contact := encrypt c p.contact } := by
  simp [anonymize_all_patients, List.getElem?_map, h]

/-- Claim C5, witness: anonymize-all over a one-patient store rewrites
the derived fields of that record and leaves the raw fields intact. -/
theorem anonymize_all_spec_witness :
    (DB.mk [⟨1, "Jane Doe", "5551234567", "flu", "Patient_999", "******4567",
        encrypt ⟨0⟩ "Jane Doe", encrypt ⟨0⟩ "5551234567", 0⟩] [] 2 1).patients[0]?
      = some ⟨1, "Jane Doe", "5551234567", "flu", "Patient_999", "******4567",
          encrypt ⟨0⟩ "Jane Doe", encrypt ⟨0⟩ "5551234567", 0⟩ ∧
    (anonymize_all_patients ⟨0⟩
        ⟨[⟨1, "Jane Doe", "5551234567", "flu", "Patient_999", "******4567",
            encrypt ⟨0⟩ "Jane Doe", encrypt ⟨0⟩ "5551234567", 0⟩], [], 2, 1⟩).patients[0]?
      = some ⟨1, "Jane Doe", "5551234567", "flu", mask_name 1, mask_contact "5551234567",
          encrypt ⟨0⟩ "Jane Doe", encrypt ⟨0⟩ "5551234567", 0⟩ :=
  ⟨rfl,
    anonymize_all_spec ⟨0⟩
      ⟨[⟨1, "Jane Doe", "5551234567", "flu", "Patient_999", "******4567",
          encrypt ⟨0⟩ "Jane Doe", encrypt ⟨0⟩ "5551234567", 0⟩], [], 2, 1⟩ 0
      ⟨1, "Jane Doe", "5551234567", "flu", "Patient_999", "******4567",
          encrypt ⟨0⟩ "Jane Doe", encrypt ⟨0⟩ "5551234567", 0⟩ rfl⟩

/-- Claim C6: with the raw fields untouched between the two calls,
running `anonymize_all_patients` twice gives the same persisted state as
running it once. -/
theorem anonymize_all_idempotent (c : Cipher) (d : DB) :
    anonymize_all_patients c (anonymize_all_patients c d)
      = anonymize_all_patients c d := by
  cases d with
  | mk ps logs nid ck =>
      simp only [anonymize_all_patients, List.map_map, DB.mk.injEq, and_true, true_and]
      exact List.map_congr_left fun p _ => rfl

/-- Claim C7: the pseudonym is a pure function of the numeric identifier
alone — equal ids give the identical string on every call, distinct ids
give distinct pseudonyms. -/
theorem mask_name_deterministic_injective :
    ∀ i j : Nat, mask_name i = mask_name j ↔ i = j := by
  intro i j
  constructor
  · exact fun h => mask_name_injective h
  · intro h
    rw [h]

/-- Claim C7, witness: the placeholder pseudonym for id 999 differs from
the pseudonym for id 1. -/
theorem mask_name_deterministic_injective_witness :
    mask_name 999 ≠ mask_name 1 :=
  fun h => absurd ((mask_name_deterministic_injective 999 1).1 h) (by decide)

/-- Claim C8: for contacts of length at least the preserved suffix, the
redaction keeps the length, begins with the mask character repeated for
the non-suffix length, and ends with the original trailing characters;
shorter contacts come back fully masked. -/
theorem mask_contact_spec :
    (∀ c : String, suffixLen ≤ c.length →
      (mask_contact c).data.length = c.length ∧
      (mask_contact c).data.take (c.length - suffixLen)
          = List.replicate (c.length - suffixLen) '*' ∧
      (mask_contact c).data.drop (c.length - suffixLen)
          = c.data.drop (c.length - suffixLen)) ∧
    (∀ c : String, c.length < suffixLen →
      (mask_contact c).data = List.replicate c.length '*') := by
  constructor
  · intro c h
    have h' : suffixLen ≤ c.data.length := h
    refine ⟨?_, ?_, ?_⟩
    · simp [mask_contact, h, h']
    · simp only [mask_contact, h', if_pos]
      rw [List.take_left' (by simp)]
      rfl
    · simp only [mask_contact, h', if_pos]
      rw [List.drop_left' (by simp)]
      rfl
  · intro c h
    have h2 : ¬ suffixLen ≤ c.data.length := Nat.not_le.mpr h
    have h3 : ¬ suffixLen ≤ c.length := Nat.not_le.mpr h
    simp [mask_contact, h2, h3]

/-- Claim C8, witness: a ten-character contact keeps its last four
characters and is masked in front; a two-character contact is fully
masked. -/
theorem mask_contact_spec_witness :
    suffixLen ≤ ("5551234567" : String).length ∧
    (mask_contact "5551234567").data.drop 6 = ("5551234567" : String).data.drop 6 ∧
    ("ab" : String).length < suffixLen ∧
    (mask_contact "ab").data = List.replicate 2 '*' :=
  ⟨by decide, (mask_contact_spec.1 "5551234567" (by decide)).2.2,
    by decide, mask_contact_spec.2 "ab" (by decide)⟩

/-- Claim C1, counterexample: during the add flow of `patients_page`
(lines 178–196 of `app.py`) a record with the stale placeholder
pseudonym `mask_name 999` is persisted — the state right after the
insert (line 189) and before the corrective update (line 192) holds a
patient whose `anonymized_name` is not the pseudonym of its assigned
id. -/
theorem add_flow_persists_placeholder :
    ∃ d ∈ add_flow_trace ⟨0⟩ emptyDB "Jane Doe" "5551234567" "flu",
      ∃ p ∈ d.patients, p.anonymized_name ≠ mask_name p.patient_id := by
  decide

/-- Claim C1 (amended): after the add flow completes, the persisted
record carries the pseudonym of its finally assigned id (and the raw
fields, masks, encryptions and insertion time as computed in the flow);
however, the flow first persists the record with the placeholder
pseudonym `mask_name 999` and only then rewrites it, so a stale
placeholder is transiently persisted between the insert and the
corrective update. -/
theorem add_flow_final_correct (c : Cipher) (s : AppState) (u : User)
    (n co dg : String) (hu : s.user = some u)
    (hrole : u.role = Role.admin ∨ u.role = Role.receptionist)
    (hn : n ≠ "") (hc : co ≠ "") (hd : dg ≠ "")
    (hfresh : ∀ p ∈ s.db.patients, p.patient_id ≠ s.db.nextId) :
    (step c s (Event.addPatient n co dg)).db.patients =
      s.db.patients ++
        [⟨s.db.nextId, n, co, dg, mask_name s.db.nextId, mask_contact co,
          encrypt c n, encrypt c co, s.db.clock⟩] := by
  have hstep : (step c s (Event.addPatient n co dg)).db.patients
      = (add_flow c s.db n co dg).final.patients := by
    simp only [step, hu]
    rw [if_pos hrole, if_pos ⟨hn, hc, hd⟩, log_user_action_patients]
  rw [hstep]
  simp only [add_flow, add_patient, update_patient, List.map_append]
  have hold : s.db.patients.map
      (fun p =>
        if p.patient_id = s.db.nextId then
          { p with
              name := n, contact := co, diagnosis := dg,
              anonymized_name := mask_name s.db.nextId,
              anonymized_contact := mask_contact co }
        else p) = s.db.patients := by
    conv_rhs => rw [← List.map_id s.db.patients]
    exact List.map_congr_left fun p hp => by simp [hfresh p hp]
  rw [hold]
  simp

/-- Claim C1, witness: a receptionist adding Jane Doe to the empty store
ends with a single record pseudonymized under its real id 1. -/
theorem add_flow_final_correct_witness :
    (AppState.mk emptyDB (some ⟨"alice_recep", Role.receptionist⟩)).user
        = some ⟨"alice_recep", Role.receptionist⟩ ∧
    (step ⟨0⟩ ⟨emptyDB, some ⟨"alice_recep", Role.receptionist⟩⟩
        (Event.addPatient "Jane Doe" "5551234567" "flu")).db.patients
      = [] ++ [⟨1, "Jane Doe", "5551234567", "flu", mask_name 1,
          mask_contact "5551234567", encrypt ⟨0⟩ "Jane Doe",
          encrypt ⟨0⟩ "5551234567", 0⟩] :=
  ⟨rfl,
    add_flow_final_correct ⟨0⟩ ⟨emptyDB, some ⟨"alice_recep", Role.receptionist⟩⟩
      ⟨"alice_recep", Role.receptionist⟩ "Jane Doe" "5551234567" "flu" rfl
      (Or.inr rfl) (by decide) (by decide) (by decide) (by decide)⟩
